import Mathlib

/-!
Verification development for the APEX Mission Analysis Orchestration Core.

The first sections are a shallow embedding of the repository's policy code:
`src/frontend/lib/authorityPolicy.ts` (canonical authority ids, the static
pivot-rule table, pure lookup helpers, legacy-id normalization) and
`src/frontend/lib/policy.ts` (authority/INT metadata and the INT-selection
validator).  Later sections model, from the specification, the parts of the
core whose implementation lives in the backend service layer (pivot
validation/application, the guardrail merge rule, and the delta stage's
previous-run selection).  Theorems about the embedded definitions follow the
definitions.
-/

namespace Apex

/-- Canonical authority identifiers (`AuthorityId` union type in
`src/frontend/lib/authorityPolicy.ts`). -/
inductive AuthorityId where
  | T10_MIL
  | T32_NG
  | T50_INT
  | LEO_FED
  | LEO_STATELOCAL
  | DSCA
  | DHS_HS
  | CT_FUSION
  | CYBER_DUAL
  | NATO_COAL
  | GEOINT_NGA
  | COMM_RESEARCH
  | CORP_SEC
  deriving DecidableEq, Repr

/-- Risk tier of a pivot rule (`PivotRisk` in `authorityPolicy.ts`). -/
inductive PivotRisk where
  | LOW
  | MEDIUM
  | HIGH
  | BLOCKED
  deriving DecidableEq, Repr

/-- A static authority pivot rule (`AuthorityPivotRule` in
`authorityPolicy.ts`).  The source fields `from` and `to` are called `from_` and `to_` here
because `from` and `to` are reserved in Lean. -/
structure AuthorityPivotRule where
  from_ : AuthorityId
  to_ : AuthorityId
  allowed : Bool
  risk : PivotRisk
  conditions : List String
  deriving DecidableEq, Repr

/-- The static pivot rule table (`AUTHORITY_PIVOTS` in `authorityPolicy.ts`),
transcribed record by record. -/
def AUTHORITY_PIVOTS : List AuthorityPivotRule := [
  { from_ := .T10_MIL, to_ := .T32_NG, allowed := true, risk := .MEDIUM,
    conditions := [
      "Guard mission becomes state-controlled.",
      "Do not propose federal combat operations after pivot.",
      "Emphasize domestic support and civil authority lead."
    ] },
  { from_ := .T10_MIL, to_ := .DSCA, allowed := true, risk := .LOW,
    conditions := [
      "Military acts in support of civil authorities.",
      "No direct arrest or law-enforcement actions.",
      "Emphasize logistics, SAR, comms, and protection."
    ] },
  { from_ := .T10_MIL, to_ := .T50_INT, allowed := true, risk := .HIGH,
    conditions := [
      "Pivot is driven by long-term intelligence requirements.",
      "Focus moves to foreign-directed networks or actors.",
      "Do not treat this as a law-enforcement mission."
    ] },
  { from_ := .T10_MIL, to_ := .LEO_FED, allowed := true, risk := .HIGH,
    conditions := [
      "Criminal prosecution becomes primary objective.",
      "Law enforcement leads; military supports or exits.",
      "Recommendations must respect Posse Comitatus constraints."
    ] },
  { from_ := .T10_MIL, to_ := .LEO_STATELOCAL, allowed := true, risk := .HIGH,
    conditions := [
      "Threat is primarily local/domestic crime.",
      "State/local agencies become lead for enforcement.",
      "Focus on information sharing and evidence handling."
    ] },
  { from_ := .T32_NG, to_ := .T10_MIL, allowed := true, risk := .MEDIUM,
    conditions := [
      "Guard is federalized due to scale or escalation.",
      "Mission may gain overseas or combat implications.",
      "Ensure ROE and command relationships are clearly stated."
    ] },
  { from_ := .T32_NG, to_ := .DSCA, allowed := true, risk := .LOW,
    conditions := [
      "Guard supports civil authorities while remaining state-controlled.",
      "No unilateral criminal enforcement beyond normal Guard authorities."
    ] },
  { from_ := .T50_INT, to_ := .LEO_FED, allowed := true, risk := .HIGH,
    conditions := [
      "Domestic criminal case or CT threat requires law enforcement lead.",
      "Respect minimization and domestic collection rules.",
      "Avoid recommending direct IC operational enforcement actions."
    ] },
  { from_ := .T50_INT, to_ := .T10_MIL, allowed := true, risk := .MEDIUM,
    conditions := [
      "Intel product forms basis for foreign or battlefield operations.",
      "Emphasize targeting, ROE, and campaign planning, not arrests."
    ] },
  { from_ := .LEO_STATELOCAL, to_ := .LEO_FED, allowed := true, risk := .LOW,
    conditions := [
      "Case crosses state lines or meets federal thresholds.",
      "Federal statutes or CT frameworks now apply."
    ] },
  { from_ := .LEO_FED, to_ := .DSCA, allowed := true, risk := .MEDIUM,
    conditions := [
      "Law enforcement remains lead; DoD provides support.",
      "Do not suggest military takes over investigation or prosecution."
    ] },
  { from_ := .COMM_RESEARCH, to_ := .LEO_FED, allowed := true, risk := .MEDIUM,
    conditions := [
      "Escalation path is threat reporting, not self-directed enforcement.",
      "Emphasize evidence preservation and legal counsel."
    ] },
  { from_ := .CORP_SEC, to_ := .LEO_STATELOCAL, allowed := true, risk := .MEDIUM,
    conditions := [
      "Clear criminal activity identified.",
      "Recommendations focus on notification and cooperation."
    ] },
  { from_ := .CORP_SEC, to_ := .T50_INT, allowed := false, risk := .BLOCKED,
    conditions := [
      "Private-sector security cannot directly task intelligence authorities.",
      "Escalate via law enforcement or homeland security channels instead."
    ] },
  { from_ := .COMM_RESEARCH, to_ := .T10_MIL, allowed := false, risk := .BLOCKED,
    conditions := [
      "Commercial or academic actors cannot directly task military operations.",
      "Consider notifications to appropriate government entities instead."
    ] }
]

/-- `getAllowedPivots` in `authorityPolicy.ts`: filter the static rule table
to rows with matching `from` and `allowed = true`. -/
def getAllowedPivots (src : AuthorityId) : List AuthorityPivotRule :=
  AUTHORITY_PIVOTS.filter (fun rule => rule.from_ == src && rule.allowed)

/-- `getPivotRule` in `authorityPolicy.ts`: first rule matching `(from, to)`. -/
def getPivotRule (src : AuthorityId) (to_ : AuthorityId) : Option AuthorityPivotRule :=
  AUTHORITY_PIVOTS.find? (fun rule => rule.from_ == src && rule.to_ == to_)

/-- The key set of the `AUTHORITIES` record in `authorityPolicy.ts`, as
string-to-id pairs: `AUTHORITIES[direct]` is defined exactly when the string
is one of these canonical ids. -/
def canonicalAuthorityIds : List (String × AuthorityId) := [
  ("T10_MIL", .T10_MIL),
  ("T32_NG", .T32_NG),
  ("T50_INT", .T50_INT),
  ("LEO_FED", .LEO_FED),
  ("LEO_STATELOCAL", .LEO_STATELOCAL),
  ("DSCA", .DSCA),
  ("DHS_HS", .DHS_HS),
  ("CT_FUSION", .CT_FUSION),
  ("CYBER_DUAL", .CYBER_DUAL),
  ("NATO_COAL", .NATO_COAL),
  ("GEOINT_NGA", .GEOINT_NGA),
  ("COMM_RESEARCH", .COMM_RESEARCH),
  ("CORP_SEC", .CORP_SEC)
]

/-- `LEGACY_TO_AUTHORITY_ID` in `authorityPolicy.ts`. -/
def LEGACY_TO_AUTHORITY_ID : List (String × AuthorityId) := [
  ("TITLE_10_MIL", .T10_MIL),
  ("TITLE_50_IC", .T50_INT),
  ("LEO", .LEO_FED),
  ("DHS_HOMELAND", .DHS_HS),
  ("COMMERCIAL_RESEARCH", .COMM_RESEARCH),
  ("DSCA", .DSCA),
  ("NGA_GEO", .GEOINT_NGA),
  ("FBI_DOJ", .LEO_FED),
  ("CYBER_DUAL_HAT", .CYBER_DUAL),
  ("NCTC_CT", .CT_FUSION),
  ("STATE_FUSION", .LEO_STATELOCAL),
  ("NATO_COALITION", .NATO_COAL),
  ("CORPORATE_SECURITY", .CORP_SEC)
]

/-- Lookup in a string-keyed association list (JS record indexing). -/
def lookupByKey {α : Type} (table : List (String × α)) (key : String) : Option α :=
  (table.find? (fun pair => pair.1 == key)).map (fun pair => pair.2)

/-- JS whitespace test used by `trim`, character-wise. -/
def isWsChar (c : Char) : Bool := c.isWhitespace

/-- JS `String.prototype.trim`, modelled at the character-list level so that
it evaluates by kernel reduction: strip leading and trailing whitespace. -/
def trimString (s : String) : String :=
  ⟨((s.data.dropWhile isWsChar).reverse.dropWhile isWsChar).reverse⟩

/-- JS `String.prototype.toUpperCase`, modelled character-wise (ASCII case
mapping; every identifier this embedding upper-cases is ASCII). -/
def upperString (s : String) : String := ⟨s.data.map Char.toUpper⟩

/-- `normalizeAuthorityId` in `authorityPolicy.ts`: trim, try the canonical
`AUTHORITIES` key set directly, then the upper-cased legacy map; `none`
models both JS `undefined` and a falsy (`null`/empty) argument. -/
def normalizeAuthorityId (value : Option String) : Option AuthorityId :=
  match value with
  | none => none
  | some v =>
    if v == "" then none
    else
      let trimmed := trimString v
      if trimmed == "" then none
      else
        match lookupByKey canonicalAuthorityIds trimmed with
        | some direct => some direct
        | none => lookupByKey LEGACY_TO_AUTHORITY_ID (upperString trimmed)

/-- `summarizePivotConditions` in `authorityPolicy.ts`: normalize both sides,
look up the rule, and join its conditions with spaces; `none` models the
JS `null` result. -/
def summarizePivotConditions (fromAuthority toAuthority : Option String) : Option String :=
  match normalizeAuthorityId fromAuthority, normalizeAuthorityId toAuthority with
  | some fromId, some toId =>
    match getPivotRule fromId toId with
    | none => none
    | some rule =>
      if rule.conditions.isEmpty then none
      else some (String.intercalate " " rule.conditions)
  | _, _ => none

/-! Embedding of `src/frontend/lib/policy.ts`: authority and INT metadata
plus the INT-selection validator. -/

/-- `AuthorityMetadata` in `policy.ts`. -/
structure AuthorityMetadata where
  code : String
  label : String
  description : String
  prohibitions : String
  allowedInts : List String
  deriving DecidableEq, Repr

/-- `IntMetadataEntry` in `policy.ts`. -/
structure IntMetadataEntry where
  code : String
  label : String
  notes : String
  deriving DecidableEq, Repr

/-- `AUTHORITY_METADATA` in `policy.ts`, as key/record pairs (the key of each
entry equals its `code` field in the source). -/
def AUTHORITY_METADATA : List (String × AuthorityMetadata) := [
  ("TITLE_10_MIL",
   { code := "TITLE_10_MIL",
     label := "Title 10 – Military Operations",
     description :=
       "Operational ISR and mission analysis for military forces with a foreign/battlefield focus.",
     prohibitions := "Do not propose domestic policing actions, arrests, or covert Title 50 tradecraft.",
     allowedInts := ["OSINT", "GEOINT", "SIGINT", "HUMINT", "MASINT", "ALL_SOURCE"] }),
  ("TITLE_50_IC",
   { code := "TITLE_50_IC",
     label := "Title 50 – Intelligence",
     description := "Foreign intelligence and counterintelligence production for the IC.",
     prohibitions := "Avoid domestic arrests, kinetic strike tasking, or bulk U.S. person surveillance.",
     allowedInts := ["OSINT", "SIGINT", "HUMINT", "GEOINT", "MASINT", "CI_INT"] }),
  ("LEO",
   { code := "LEO",
     label := "Law Enforcement",
     description := "Criminal case support, evidence development, and investigative analysis.",
     prohibitions := "Do not suggest warrantless searches, illegal surveillance, or military actions.",
     allowedInts := ["OSINT", "HUMINT", "GEOINT", "SIGINT", "LEO_CRIMINT"] }),
  ("DHS_HOMELAND",
   { code := "DHS_HOMELAND",
     label := "DHS / Homeland Security",
     description := "Border, transportation, and infrastructure security missions.",
     prohibitions := "Stay within DHS authorities—no directing external military or LEO actions.",
     allowedInts := ["OSINT", "GEOINT", "HUMINT", "SIGINT", "CT_INT"] }),
  ("COMMERCIAL_RESEARCH",
   { code := "COMMERCIAL_RESEARCH",
     label := "Commercial / Research",
     description := "Corporate security, academic research, and training scenarios.",
     prohibitions := "Never direct real-world arrests, kinetic options, or illegal hacking.",
     allowedInts := ["OSINT", "SOCMINT", "ALL_SOURCE"] }),
  ("DSCA",
   { code := "DSCA",
     label := "Defense Support of Civil Authorities",
     description := "Military support to civil authorities during emergencies under civilian lead.",
     prohibitions := "Do not instruct soldiers to conduct arrests or policing activities.",
     allowedInts := ["OSINT", "GEOINT", "SIGINT", "ALL_SOURCE"] }),
  ("NGA_GEO",
   { code := "NGA_GEO",
     label := "GEOINT – NGA",
     description := "Geospatial imagery, mapping, and terrain analysis to support decisions.",
     prohibitions := "Avoid persistent tracking of U.S. persons without a legal basis.",
     allowedInts := ["GEOINT", "OSINT", "SIGINT"] }),
  ("FBI_DOJ",
   { code := "FBI_DOJ",
     label := "Federal Investigative – DOJ/FBI",
     description := "Federal criminal and national security investigations under DOJ authorities.",
     prohibitions := "Do not encourage surveillance or searches outside proper warrants/statutes.",
     allowedInts := ["OSINT", "HUMINT", "SIGINT", "GEOINT", "ALL_SOURCE"] }),
  ("CYBER_DUAL_HAT",
   { code := "CYBER_DUAL_HAT",
     label := "Cyber – Dual Hat",
     description := "Joint NSA/CYBERCOM missions that separate intel and operational roles.",
     prohibitions := "No unauthorized offensive hacking or domestic data mixing.",
     allowedInts := ["SIGINT", "OSINT", "CYBINT"] }),
  ("NCTC_CT",
   { code := "NCTC_CT",
     label := "Counterterrorism Fusion",
     description := "All-source CT fusion emphasizing civil liberties and interagency sharing.",
     prohibitions := "Do not design mass surveillance or treat communities as suspects without basis.",
     allowedInts := ["OSINT", "SIGINT", "HUMINT", "GEOINT", "CT_INT", "ALL_SOURCE"] }),
  ("STATE_FUSION",
   { code := "STATE_FUSION",
     label := "State / Regional Fusion",
     description := "State-level intel and law-enforcement sharing centers.",
     prohibitions := "Avoid profiling based on protected classes or indiscriminate collection.",
     allowedInts := ["OSINT", "HUMINT", "GEOINT", "LEO_CRIMINT"] }),
  ("NATO_COALITION",
   { code := "NATO_COALITION",
     label := "NATO / Coalition",
     description := "Multinational operations with releasability and caveat constraints.",
     prohibitions := "Do not mix NOFORN intel into releasable coalition products.",
     allowedInts := ["OSINT", "GEOINT", "SIGINT", "HUMINT", "ALL_SOURCE"] }),
  ("CORPORATE_SECURITY",
   { code := "CORPORATE_SECURITY",
     label := "Corporate Security / Insider Threat",
     description := "Commercial physical/cyber security, insider threat, and fraud prevention.",
     prohibitions := "Never recommend unlawful monitoring, wiretaps, or privacy violations.",
     allowedInts := ["OSINT", "SOCMINT", "ALL_SOURCE"] })
]

/-- `INT_METADATA` in `policy.ts`, as key/record pairs. -/
def INT_METADATA : List (String × IntMetadataEntry) := [
  ("OSINT",
   { code := "OSINT", label := "OSINT – Open-Source",
     notes := "Public/commercial data governed by privacy, ToS, and civil liberties constraints." }),
  ("HUMINT",
   { code := "HUMINT", label := "HUMINT – Human Intelligence",
     notes := "Source handling, consent, and tradecraft rules apply; no automated tasking of people." }),
  ("SIGINT",
   { code := "SIGINT", label := "SIGINT – Signals",
     notes := "Highly regulated intercept data; watch for U.S. person minimization requirements." }),
  ("GEOINT",
   { code := "GEOINT", label := "GEOINT – Geospatial",
     notes := "Imagery/geospatial data; avoid privacy violations or targeting domestic individuals." }),
  ("MASINT",
   { code := "MASINT", label := "MASINT – Measurement & Signature",
     notes := "Specialized sensing with unique classification and handling caveats." }),
  ("CYBINT",
   { code := "CYBINT", label := "CYBINT – Cyber Intelligence",
     notes := "Technical telemetry about cyber operations; ensure legal authorities for collection." }),
  ("FININT",
   { code := "FININT", label := "FININT – Financial",
     notes := "Financial reporting with strict privacy and compliance requirements." }),
  ("TECHINT",
   { code := "TECHINT", label := "TECHINT – Technical Intelligence",
     notes := "Material exploitation data; follow export controls and handling limits." }),
  ("SOCMINT",
   { code := "SOCMINT", label := "SOCMINT – Social Media",
     notes := "Social platform collection, emphasizing ToS compliance and minimization." }),
  ("ALL_SOURCE",
   { code := "ALL_SOURCE", label := "All-Source",
     notes := "Fusion of multiple INTs—must honor the most restrictive source constraints." }),
  ("LEO_CRIMINT",
   { code := "LEO_CRIMINT", label := "LEO CRIMINT",
     notes := "Criminal intelligence for law enforcement with evidentiary integrity rules." }),
  ("CT_INT",
   { code := "CT_INT", label := "CT INT",
     notes := "Counterterrorism reporting shared across partners; guard against over-collection." }),
  ("CI_INT",
   { code := "CI_INT", label := "CI INT",
     notes := "Counterintelligence material with strict classification and need-to-know limits." }),
  ("CASE_INT",
   { code := "CASE_INT", label := "CASEINT – Investigative Case Intel",
     notes := "Law-enforcement case evidence, subject packets, and investigative leads." })
]

/-- `describeAuthority` in `policy.ts`: falsy code gives `undefined`,
otherwise the record is indexed at the upper-cased code. -/
def describeAuthority (code : Option String) : Option AuthorityMetadata :=
  match code with
  | none => none
  | some c => if c == "" then none else lookupByKey AUTHORITY_METADATA (upperString c)

/-- `describeInt` in `policy.ts`. -/
def describeInt (code : Option String) : Option IntMetadataEntry :=
  match code with
  | none => none
  | some c => if c == "" then none else lookupByKey INT_METADATA (upperString c)

/-- `formatIntLabel` in `policy.ts`: metadata label when known, otherwise the
code itself (or the string the source renders for a missing code). -/
def formatIntLabel (code : Option String) : String :=
  match describeInt code with
  | some meta => meta.label
  | none =>
    match code with
    | some c => c
    | none => "Unknown INT"

/-- JS `Array.from(new Set(xs))`: deduplicate keeping first occurrences.
The `seen` accumulator holds the elements already emitted. -/
def dedupKeepFirstAux (seen : List String) : List String → List String
  | [] => []
  | c :: cs =>
    if c ∈ seen then dedupKeepFirstAux seen cs
    else c :: dedupKeepFirstAux (c :: seen) cs

/-- Deduplication keeping first occurrences (JS `Set` insertion order). -/
def dedupKeepFirst (codes : List String) : List String :=
  dedupKeepFirstAux [] codes

/-- The normalization pipeline inside `validateAuthorityIntSelection`:
trim and upper-case each code, drop falsy (empty) results, deduplicate. -/
def normalizedIntCodes (intCodes : List String) : List String :=
  dedupKeepFirst ((intCodes.map (fun c => upperString (trimString c))).filter (fun c => c != ""))

/-- The message built for one disallowed INT code in
`validateAuthorityIntSelection`. -/
def intNotAuthorizedMessage (meta : AuthorityMetadata) (c : String) : String :=
  formatIntLabel (some c) ++ " is not authorized under the " ++ meta.label ++ " lane."

/-- `validateAuthorityIntSelection` in `policy.ts`. -/
def validateAuthorityIntSelection (authorityCode : Option String)
    (intCodes : List String) : List String :=
  match authorityCode with
  | none => []
  | some a =>
    if a == "" then []
    else if intCodes.isEmpty then []
    else
      match describeAuthority (some a) with
      | none => []
      | some meta =>
        if meta.allowedInts.isEmpty then []
        else
          let normalized := normalizedIntCodes intCodes
          let disallowed := normalized.filter (fun c => !(meta.allowedInts.contains c))
          if disallowed.isEmpty then []
          else disallowed.map (intNotAuthorizedMessage meta)

/-- The behaviour claim C9 ascribes to `validateAuthorityIntSelection`: one
message per distinct trimmed-and-upper-cased selected INT code not in the
authority's `allowedInts` list — with no dropping of codes that are empty
after trimming.  Kept separate so it can be compared with the embedded
source function. -/
def claimedIntMessages (authorityCode : Option String)
    (intCodes : List String) : List String :=
  match authorityCode with
  | none => []
  | some a =>
    if a == "" then []
    else if intCodes.isEmpty then []
    else
      match describeAuthority (some a) with
      | none => []
      | some meta =>
        ((dedupKeepFirst (intCodes.map (fun c => upperString (trimString c)))).filter
          (fun c => !(meta.allowedInts.contains c))).map (intNotAuthorizedMessage meta)

/-! Frontend justification check from
`src/frontend/components/MissionDetail.tsx` (`PivotAuthorityModal.handleSubmit`). -/

/-- The justification gate in `PivotAuthorityModal.handleSubmit`
(`MissionDetail.tsx`): the submission is rejected when
`justification.trim().length < 10`. -/
def pivotModalJustificationRejected (justification : String) : Bool :=
  (trimString justification).length < 10

/-! Authority policy engine.  The validating/mutating side of the engine lives
in the backend service layer (`backend/app`, mirrored from
`authorityPolicy.ts` per its header comment), whose source is not part of
this checkout; it is modelled here from the specification, on top of the
rule table embedded above. -/

/-- Modelled from the spec: the policy error taxonomy of `validatePivot`
(backend pivot endpoint, not in this checkout). -/
inductive PolicyError where
  | NoSuchRule
  | RuleBlocked
  | JustificationTooShort
  deriving DecidableEq, Repr

/-- Modelled from the spec: the per-mission `AuthorityPivot` audit record
(backend model, not in this checkout) — `risk` and `conditions` are copied
from the matched rule at application time. -/
structure AuthorityPivot where
  from_authority : AuthorityId
  to_authority : AuthorityId
  justification : String
  risk : PivotRisk
  conditions : List String
  deriving DecidableEq, Repr

/-- Modelled from the spec: the mission state the policy engine touches
(backend mission model, not in this checkout) — current and original
authority plus the append-only pivot ledger. -/
structure Mission where
  primary_authority : AuthorityId
  original_authority : AuthorityId
  authority_pivots : List AuthorityPivot
  deriving DecidableEq, Repr

/-- Modelled from the spec: the configured minimum justification length
(10 characters observed in the reference UI). -/
def minJustificationLength : Nat := 10

/-- Modelled from the spec: `validatePivot(mission, to, justification)`
(backend pivot endpoint, not in this checkout) — `NoSuchRule` when no rule
matches `(primary_authority, to)`, `RuleBlocked` when the rule has
`allowed = false`, `JustificationTooShort` below the configured minimum;
on success an `AuthorityPivot` carrying the rule data. -/
def validatePivot (m : Mission) (to_ : AuthorityId) (justification : String) :
    Except PolicyError AuthorityPivot :=
  match getPivotRule m.primary_authority to_ with
  | none => .error .NoSuchRule
  | some rule =>
    if !rule.allowed then .error .RuleBlocked
    else if justification.length < minJustificationLength then .error .JustificationTooShort
    else .ok { from_authority := m.primary_authority, to_authority := to_,
               justification := justification, risk := rule.risk,
               conditions := rule.conditions }

/-- Modelled from the spec: applying a validated pivot — append the record to
the ledger and set `primary_authority = to`, atomically. -/
def applyPivot (m : Mission) (to_ : AuthorityId) (justification : String) :
    Except PolicyError Mission :=
  (validatePivot m to_ justification).map (fun p =>
    { m with primary_authority := to_,
             authority_pivots := m.authority_pivots ++ [p] })

/-- The mission state after a pivot attempt: the new state on success, the
unchanged state on a policy error (a pivot is never partially applied). -/
def pivotResultState (m : Mission) (to_ : AuthorityId) (justification : String) : Mission :=
  match applyPivot m to_ justification with
  | .ok m2 => m2
  | .error _ => m

/-- A freshly created mission: `original_authority` set at creation, no
pivots yet. -/
def newMission (a : AuthorityId) : Mission :=
  { primary_authority := a, original_authority := a, authority_pivots := [] }

/-- Mission states reachable by the policy engine: creation followed by any
number of successful pivot applications (the only operation that mutates
mission authority state). -/
inductive MissionReachable : Mission → Prop where
  | init (a : AuthorityId) : MissionReachable (newMission a)
  | pivot (m m2 : Mission) (to_ : AuthorityId) (j : String) :
      MissionReachable m → applyPivot m to_ j = .ok m2 → MissionReachable m2

/-- The spec invariant on mission authority state: `primary_authority`
equals `original_authority` or the `to` side of the most recently applied
pivot in the ledger. -/
def missionAuthorityInvariant (m : Mission) : Prop :=
  m.primary_authority = m.original_authority ∨
    ∃ p, m.authority_pivots.getLast? = some p ∧ m.primary_authority = p.to_authority

/-! Guardrail evaluator merge rule.  The evaluator itself is implemented in
the backend guardrail service, not in this checkout; its merge rule is
modelled here from the specification. -/

/-- Modelled from the spec: the ordered guardrail score enum
(`ok` < `caution` < `warning`/`review` < `blocked`); `warning` and `review`
share a level. -/
inductive GuardrailScore where
  | ok
  | caution
  | warning
  | review
  | blocked
  deriving DecidableEq, Repr

/-- Severity level realizing the spec order on guardrail scores. -/
def GuardrailScore.severity : GuardrailScore → Nat
  | .ok => 0
  | .caution => 1
  | .warning => 2
  | .review => 2
  | .blocked => 3

/-- Modelled from the spec: a `GuardrailReport` — overall score plus ordered
issue list. -/
structure GuardrailReport where
  overall_score : GuardrailScore
  issues : List String
  deriving DecidableEq, Repr

/-- Modelled from the spec: the guardrail merge rule (backend guardrail
service, not in this checkout) — the worse of the heuristic and model
self-check sub-scores wins, and the issue lists are concatenated with the
heuristic issues first. -/
def mergeGuardrail (heuristic modelCheck : GuardrailReport) : GuardrailReport :=
  { overall_score :=
      if heuristic.overall_score.severity < modelCheck.overall_score.severity
      then modelCheck.overall_score
      else heuristic.overall_score,
    issues := heuristic.issues ++ modelCheck.issues }

/-! Delta stage previous-run selection.  The pipeline orchestrator is
implemented in the backend agent service, not in this checkout; the delta
stage's previous-run selection is modelled here from the specification. -/

/-- Modelled from the spec: an `AgentRun` status (`completed` or `failed`). -/
inductive RunStatus where
  | completed
  | failed
  deriving DecidableEq, Repr

/-- Modelled from the spec: the slice of an `AgentRun` record the delta stage
selection depends on — the monotonic sequence number and the status. -/
structure AgentRun where
  seq : Nat
  status : RunStatus
  deriving DecidableEq, Repr

/-- The run with the greatest sequence number in a list. -/
def maxBySeq : List AgentRun → Option AgentRun
  | [] => none
  | r :: rs =>
    match maxBySeq rs with
    | none => some r
    | some b => if b.seq < r.seq then some r else some b

/-- Modelled from the spec: `latestCompleted` of the Run Store interface —
the most recently created run among those with `completed` status. -/
def latestCompleted (runs : List AgentRun) : Option AgentRun :=
  maxBySeq (runs.filter (fun r => r.status == .completed))

/-- What the delta stage diffs against. -/
inductive DeltaBasis where
  | firstRun
  | previous (run : AgentRun)
  deriving DecidableEq, Repr

/-- Modelled from the spec: the delta stage resolves its previous run as the
most recently completed prior run, degrading to the first-run case when
there is none. -/
def deltaBasis (priorRuns : List AgentRun) : DeltaBasis :=
  match latestCompleted priorRuns with
  | none => .firstRun
  | some r => .previous r

/-- Modelled from the spec: the explicit first-run marker the delta stage
emits when no prior run exists (a non-empty marker, never the empty
string). -/
def firstRunMarker : String :=
  "First run - no previous analysis to compare."

/-- Modelled from the spec: the delta stage output — the diff against the
selected previous run, or the explicit first-run marker. -/
def deltaStageOutput (priorRuns : List AgentRun) (diffAgainst : AgentRun → String) : String :=
  match deltaBasis priorRuns with
  | .firstRun => firstRunMarker
  | .previous r => diffAgainst r

/-! Helper lemmas shared by the claim theorems. -/

/-- Membership in `getAllowedPivots` characterized by the filter predicate. -/
theorem mem_getAllowedPivots (src : AuthorityId) (r : AuthorityPivotRule) :
    r ∈ getAllowedPivots src ↔ r ∈ AUTHORITY_PIVOTS ∧ r.from_ = src ∧ r.allowed = true := by
  simp [getAllowedPivots, List.mem_filter, Bool.and_eq_true, beq_iff_eq, and_assoc]

/-- A rule found by `getPivotRule` is a table row matching both endpoints. -/
theorem getPivotRule_eq_some (src t : AuthorityId) (r : AuthorityPivotRule)
    (h : getPivotRule src t = some r) :
    r ∈ AUTHORITY_PIVOTS ∧ r.from_ = src ∧ r.to_ = t := by
  unfold getPivotRule at h
  have hmem := List.mem_of_find?_eq_some h
  have hp := List.find?_some h
  simp only [Bool.and_eq_true, beq_iff_eq] at hp
  exact ⟨hmem, hp.1, hp.2⟩

/-- A successful `validatePivot` used an allowed rule, a long-enough
justification, and built the pivot record from the rule. -/
theorem validatePivot_ok (m : Mission) (t : AuthorityId) (j : String) (p : AuthorityPivot)
    (h : validatePivot m t j = .ok p) :
    ∃ rule, getPivotRule m.primary_authority t = some rule ∧ rule.allowed = true ∧
      minJustificationLength ≤ j.length ∧
      p = { from_authority := m.primary_authority, to_authority := t,
            justification := j, risk := rule.risk, conditions := rule.conditions } := by
  unfold validatePivot at h
  cases hr : getPivotRule m.primary_authority t with
  | none => rw [hr] at h; simp at h
  | some rule =>
    rw [hr] at h
    by_cases hb : rule.allowed
    · by_cases hl : j.length < minJustificationLength
      · simp [hb, hl] at h
      · simp [hb, hl] at h
        exact ⟨rule, rfl, hb, Nat.le_of_not_lt hl, h.symm⟩
    · simp [hb] at h

/-- `validatePivot` fails with `RuleBlocked` when the matched rule is not
allowed. -/
theorem validatePivot_blocked (m : Mission) (t : AuthorityId) (j : String)
    (rule : AuthorityPivotRule) (hr : getPivotRule m.primary_authority t = some rule)
    (hb : rule.allowed = false) : validatePivot m t j = .error .RuleBlocked := by
  unfold validatePivot
  rw [hr]
  simp [hb]

/-- A successful `applyPivot` decomposes into a successful `validatePivot`
and the two atomic mutations. -/
theorem applyPivot_ok (m : Mission) (t : AuthorityId) (j : String) (m2 : Mission)
    (h : applyPivot m t j = .ok m2) :
    ∃ p, validatePivot m t j = .ok p ∧
      m2 = { m with primary_authority := t,
                    authority_pivots := m.authority_pivots ++ [p] } := by
  unfold applyPivot at h
  cases hv : validatePivot m t j with
  | error e => rw [hv] at h; simp [Except.map] at h
  | ok p =>
    rw [hv] at h
    simp [Except.map] at h
    exact ⟨p, rfl, h.symm⟩

/-- `applyPivot` propagates `validatePivot` errors unchanged. -/
theorem applyPivot_error (m : Mission) (t : AuthorityId) (j : String) (e : PolicyError)
    (h : validatePivot m t j = .error e) : applyPivot m t j = .error e := by
  unfold applyPivot
  rw [h]
  rfl

/-- The run returned by `maxBySeq` is in the list. -/
theorem maxBySeq_mem : ∀ (rs : List AgentRun) (b : AgentRun), maxBySeq rs = some b → b ∈ rs := by
  intro rs
  induction rs with
  | nil => intro b h; simp [maxBySeq] at h
  | cons r rs ih =>
    intro b h
    unfold maxBySeq at h
    cases hm : maxBySeq rs with
    | none => rw [hm] at h; simp at h; simp [h]
    | some c =>
      rw [hm] at h
      by_cases hlt : c.seq < r.seq
      · simp [hlt] at h; simp [h]
      · simp [hlt] at h
        exact List.mem_cons_of_mem r (h ▸ ih c hm)

/-- `maxBySeq` returns `none` only on the empty list. -/
theorem maxBySeq_eq_none : ∀ rs : List AgentRun, maxBySeq rs = none → rs = [] := by
  intro rs h
  cases rs with
  | nil => rfl
  | cons r rs =>
    exfalso
    cases hm : maxBySeq rs with
    | none => simp [maxBySeq, hm] at h
    | some c =>
      simp [maxBySeq, hm] at h
      split at h <;> simp at h

/-- The run returned by `maxBySeq` has the greatest sequence number. -/
theorem maxBySeq_ge : ∀ (rs : List AgentRun) (b : AgentRun), maxBySeq rs = some b →
    ∀ r ∈ rs, r.seq ≤ b.seq := by
  intro rs
  induction rs with
  | nil => intro b h; simp [maxBySeq] at h
  | cons r rs ih =>
    intro b h q hq
    unfold maxBySeq at h
    cases hm : maxBySeq rs with
    | none =>
      rw [hm] at h
      simp at h
      have hnil := maxBySeq_eq_none rs hm
      subst hnil
      simp at hq
      rw [hq, ← h]
    | some c =>
      rw [hm] at h
      rcases List.mem_cons.mp hq with hq | hq
      · by_cases hlt : c.seq < r.seq
        · simp [hlt] at h; rw [hq, ← h]
        · simp [hlt] at h; rw [hq, ← h]; exact Nat.le_of_not_lt hlt
      · have hle := ih c hm q hq
        by_cases hlt : c.seq < r.seq
        · simp [hlt] at h; rw [← h]; omega
        · simp [hlt] at h; rw [← h]; exact hle

/-- Membership in the deduplication worker: kept iff present in the input
and not already seen. -/
theorem mem_dedupKeepFirstAux : ∀ (cs seen : List String) (c : String),
    c ∈ dedupKeepFirstAux seen cs ↔ c ∈ cs ∧ c ∉ seen := by
  intro cs
  induction cs with
  | nil => intro seen c; simp [dedupKeepFirstAux]
  | cons d ds ih =>
    intro seen c
    unfold dedupKeepFirstAux
    by_cases hd : d ∈ seen
    · simp only [hd, if_true, ih, List.mem_cons]
      constructor
      · rintro ⟨h1, h2⟩; exact ⟨Or.inr h1, h2⟩
      · rintro ⟨h1 | h1, h2⟩
        · exact absurd (h1 ▸ hd) h2
        · exact ⟨h1, h2⟩
    · simp only [hd, if_false, List.mem_cons, ih]
      constructor
      · rintro (h1 | ⟨h1, h2⟩)
        · exact ⟨Or.inl h1, fun hc => hd (h1 ▸ hc)⟩
        · exact ⟨Or.inr h1, fun hc => h2 (Or.inr hc)⟩
      · rintro ⟨h1 | h1, h2⟩
        · exact Or.inl h1
        · by_cases hcd : c = d
          · exact Or.inl hcd
          · exact Or.inr ⟨h1, fun hc => hc.elim hcd h2⟩

/-- Deduplication keeps exactly the elements of the input. -/
theorem mem_dedupKeepFirst (cs : List String) (c : String) :
    c ∈ dedupKeepFirst cs ↔ c ∈ cs := by
  simp [dedupKeepFirst, mem_dedupKeepFirstAux]

/-- Every authority in the metadata table has a non-empty `allowedInts`
list, so a successful `describeAuthority` lookup never yields an empty
one. -/
theorem describeAuthority_allowedInts_ne_nil (x : Option String) (meta : AuthorityMetadata)
    (h : describeAuthority x = some meta) : meta.allowedInts ≠ [] := by
  cases x with
  | none => simp [describeAuthority] at h
  | some c =>
    by_cases hc : c == ""
    · simp [describeAuthority, hc] at h
    · simp only [describeAuthority, hc, if_false] at h
      unfold lookupByKey at h
      cases hf : AUTHORITY_METADATA.find? (fun pair => pair.1 == upperString c) with
      | none => rw [hf] at h; simp at h
      | some pair =>
        rw [hf] at h
        simp at h
        have hmem := List.mem_of_find?_eq_some hf
        have hall : ∀ q ∈ AUTHORITY_METADATA, q.2.allowedInts ≠ [] := by decide
        rw [← h]
        exact hall pair hmem

/-! Claim theorems. -/

/-- Claim C1: for every mission state reachable by the policy engine,
`primary_authority` equals `original_authority` or the `to_authority` of the
most recently applied pivot in the ledger; with zero applied pivots it
equals `original_authority` exactly.  The invariant holds at creation and is
preserved by every successful pivot application, the only operation that
mutates mission authority state. -/
theorem claim_C1 : ∀ m : Mission, MissionReachable m →
    missionAuthorityInvariant m ∧
      (m.authority_pivots = [] → m.primary_authority = m.original_authority) := by
  intro m h
  induction h with
  | init a => exact ⟨Or.inl rfl, fun _ => rfl⟩
  | pivot m m2 t j hreach happ ih =>
    obtain ⟨p, hv, hm2⟩ := applyPivot_ok m t j m2 happ
    obtain ⟨rule, hr, hallow, hlen, hp⟩ := validatePivot_ok m t j p hv
    subst hm2
    refine ⟨Or.inr ⟨p, ?_, ?_⟩, ?_⟩
    · simp
    · simp [hp]
    · intro hnil
      simp at hnil

theorem claim_C1_witness :
    missionAuthorityInvariant
      { primary_authority := .DSCA, original_authority := .T10_MIL,
        authority_pivots := [
          { from_authority := .T10_MIL, to_authority := .DSCA,
            justification := "Authorized by state request.", risk := .LOW,
            conditions := [
              "Military acts in support of civil authorities.",
              "No direct arrest or law-enforcement actions.",
              "Emphasize logistics, SAR, comms, and protection."
            ] }] } ∧
    (newMission AuthorityId.T10_MIL).primary_authority =
      (newMission AuthorityId.T10_MIL).original_authority :=
  ⟨(claim_C1 _ (MissionReachable.pivot (newMission .T10_MIL) _ AuthorityId.DSCA
      "Authorized by state request." (MissionReachable.init AuthorityId.T10_MIL) rfl)).1,
   (claim_C1 _ (MissionReachable.init AuthorityId.T10_MIL)).2 rfl⟩

/-- Claim C2: a pivot whose matching rule has `allowed = false` always fails
with `RuleBlocked` and leaves the mission state (in particular
`primary_authority`) unchanged; conversely every successfully applied pivot
used a rule with `allowed = true`. -/
theorem claim_C2 :
    (∀ (m : Mission) (t : AuthorityId) (j : String) (rule : AuthorityPivotRule),
        getPivotRule m.primary_authority t = some rule → rule.allowed = false →
          applyPivot m t j = .error .RuleBlocked ∧ pivotResultState m t j = m) ∧
    (∀ (m : Mission) (t : AuthorityId) (j : String) (m2 : Mission),
        applyPivot m t j = .ok m2 →
          ∃ rule, getPivotRule m.primary_authority t = some rule ∧ rule.allowed = true) := by
  constructor
  · intro m t j rule hr hb
    have hv := validatePivot_blocked m t j rule hr hb
    have ha := applyPivot_error m t j _ hv
    exact ⟨ha, by simp [pivotResultState, ha]⟩
  · intro m t j m2 h
    obtain ⟨p, hv, _⟩ := applyPivot_ok m t j m2 h
    obtain ⟨rule, hr, hallow, _, _⟩ := validatePivot_ok m t j p hv
    exact ⟨rule, hr, hallow⟩

theorem claim_C2_witness :
    applyPivot (newMission .CORP_SEC) .T50_INT "Attempting an intel pivot." =
        .error .RuleBlocked ∧
    pivotResultState (newMission .CORP_SEC) .T50_INT "Attempting an intel pivot." =
      newMission .CORP_SEC :=
  claim_C2.1 _ _ _ _ rfl rfl

/-- Claim C3: the configured minimum justification length is 10 characters
(matching the `justification.trim().length < 10` gate of the reference UI);
`validatePivot` with a justification of length 9 fails with
`JustificationTooShort`, and with length 10 and an otherwise-valid allowed
rule it succeeds, producing the pivot record built from the rule. -/
theorem claim_C3 :
    minJustificationLength = 10 ∧
    (∀ s : String, pivotModalJustificationRejected s = true ↔
        (trimString s).length < minJustificationLength) ∧
    (∀ (m : Mission) (t : AuthorityId) (rule : AuthorityPivotRule) (j : String),
        getPivotRule m.primary_authority t = some rule → rule.allowed = true →
          (j.length = 9 → validatePivot m t j = .error .JustificationTooShort) ∧
          (j.length = 10 →
            validatePivot m t j = .ok
              { from_authority := m.primary_authority, to_authority := t,
                justification := j, risk := rule.risk, conditions := rule.conditions })) := by
  refine ⟨rfl, ?_, ?_⟩
  · intro s
    simp [pivotModalJustificationRejected, minJustificationLength]
  · intro m t rule j hr hallow
    constructor
    · intro h9
      unfold validatePivot
      rw [hr]
      simp [hallow, h9, minJustificationLength]
    · intro h10
      unfold validatePivot
      rw [hr]
      simp [hallow, h10, minJustificationLength]

theorem claim_C3_witness :
    validatePivot (newMission .T10_MIL) .DSCA "justif 9!" =
        .error .JustificationTooShort ∧
    validatePivot (newMission .T10_MIL) .DSCA "just 10 ok" =
      .ok { from_authority := .T10_MIL, to_authority := .DSCA,
            justification := "just 10 ok", risk := .LOW,
            conditions := [
              "Military acts in support of civil authorities.",
              "No direct arrest or law-enforcement actions.",
              "Emphasize logistics, SAR, comms, and protection."
            ] } := by
  have h := claim_C3.2.2 (newMission .T10_MIL) AuthorityId.DSCA
    { from_ := .T10_MIL, to_ := .DSCA, allowed := true, risk := .LOW,
      conditions := [
        "Military acts in support of civil authorities.",
        "No direct arrest or law-enforcement actions.",
        "Emphasize logistics, SAR, comms, and protection."
      ] }
  exact ⟨(h "justif 9!" rfl rfl).1 rfl, (h "just 10 ok" rfl rfl).2 rfl⟩

/-- Claim C4: `getAllowedPivots src` returns exactly the rules of the static
table whose `from` equals `src` and whose `allowed` is true (both soundness
and completeness of the filter); as a pure Lean function over static data it
is deterministic with no I/O. -/
theorem claim_C4 : ∀ (src : AuthorityId) (rule : AuthorityPivotRule),
    rule ∈ getAllowedPivots src ↔
      rule ∈ AUTHORITY_PIVOTS ∧ rule.from_ = src ∧ rule.allowed = true :=
  mem_getAllowedPivots

theorem claim_C4_witness :
    ({ from_ := .T10_MIL, to_ := .DSCA, allowed := true, risk := .LOW,
       conditions := [
         "Military acts in support of civil authorities.",
         "No direct arrest or law-enforcement actions.",
         "Emphasize logistics, SAR, comms, and protection."
       ] } : AuthorityPivotRule) ∈ getAllowedPivots .T10_MIL :=
  (claim_C4 _ _).mpr ⟨by decide, rfl, rfl⟩

/-- Claim C5: the rule `(T10_MIL, DSCA)` exists with `allowed = true` and
`risk = LOW`; pivoting a `T10_MIL` mission to `DSCA` with the scenario
justification succeeds, appends exactly one pivot record carrying the rule
risk `LOW` and the rule conditions copied at validation time, and updates
`primary_authority` to `DSCA`. -/
theorem claim_C5 :
    getPivotRule .T10_MIL .DSCA = some
      { from_ := .T10_MIL, to_ := .DSCA, allowed := true, risk := .LOW,
        conditions := [
          "Military acts in support of civil authorities.",
          "No direct arrest or law-enforcement actions.",
          "Emphasize logistics, SAR, comms, and protection."
        ] } ∧
    applyPivot (newMission .T10_MIL) .DSCA
        "Guard mission shifts to civil-support footing under state request." =
      .ok { primary_authority := .DSCA, original_authority := .T10_MIL,
            authority_pivots := [
              { from_authority := .T10_MIL, to_authority := .DSCA,
                justification :=
                  "Guard mission shifts to civil-support footing under state request.",
                risk := .LOW,
                conditions := [
                  "Military acts in support of civil authorities.",
                  "No direct arrest or law-enforcement actions.",
                  "Emphasize logistics, SAR, comms, and protection."
                ] }] } :=
  ⟨rfl, rfl⟩

/-- Claim C6: the guardrail merge takes the worse of the heuristic and model
self-check sub-scores under `blocked` > `warning`/`review` > `caution` >
`ok` (in particular heuristic `ok` with model `blocked` yields `blocked`),
and the merged issue list is the heuristic issues followed by the model
self-check issues, so it contains every model self-check issue. -/
theorem claim_C6 : ∀ (h m : GuardrailReport),
    (mergeGuardrail h m).overall_score.severity =
        max h.overall_score.severity m.overall_score.severity ∧
    ((mergeGuardrail h m).overall_score = h.overall_score ∨
      (mergeGuardrail h m).overall_score = m.overall_score) ∧
    (mergeGuardrail h m).issues = h.issues ++ m.issues ∧
    (∀ i ∈ m.issues, i ∈ (mergeGuardrail h m).issues) ∧
    (h.overall_score = .ok → m.overall_score = .blocked →
        (mergeGuardrail h m).overall_score = .blocked) := by
  intro h m
  refine ⟨?_, ?_, rfl, ?_, ?_⟩
  · by_cases hlt : h.overall_score.severity < m.overall_score.severity
    · simp [mergeGuardrail, hlt]
      omega
    · simp [mergeGuardrail, hlt]
      omega
  · by_cases hlt : h.overall_score.severity < m.overall_score.severity
    · exact Or.inr (by simp [mergeGuardrail, hlt])
    · exact Or.inl (by simp [mergeGuardrail, hlt])
  · intro i hi
    simp only [mergeGuardrail, List.mem_append]
    exact Or.inr hi
  · intro hok hbl
    simp [mergeGuardrail, hok, hbl, GuardrailScore.severity]

theorem claim_C6_witness :
    (mergeGuardrail { overall_score := .ok, issues := [] }
        { overall_score := .blocked,
          issues := ["Analytic Review: model self-check flag"] }).overall_score =
      .blocked ∧
    "Analytic Review: model self-check flag" ∈
      (mergeGuardrail { overall_score := .ok, issues := [] }
        { overall_score := .blocked,
          issues := ["Analytic Review: model self-check flag"] }).issues :=
  ⟨(claim_C6 _ _).2.2.2.2 rfl rfl, (claim_C6 _ _).2.2.2.1 _ (by simp)⟩

/-- Claim C7: authority-id normalization is total (a Lean function cannot
raise): a null argument, a whitespace-only argument, or an identifier found
in neither the canonical key set nor the legacy map normalizes to `none`,
and `summarizePivotConditions` degrades to `none` (no rule found) whenever
either side fails to normalize. -/
theorem claim_C7 :
    normalizeAuthorityId none = none ∧
    (∀ s : String, trimString s = "" → normalizeAuthorityId (some s) = none) ∧
    (∀ s : String, lookupByKey canonicalAuthorityIds (trimString s) = none →
        lookupByKey LEGACY_TO_AUTHORITY_ID (upperString (trimString s)) = none →
        normalizeAuthorityId (some s) = none) ∧
    (∀ v t : Option String, normalizeAuthorityId v = none →
        summarizePivotConditions v t = none) ∧
    (∀ v f : Option String, normalizeAuthorityId v = none →
        summarizePivotConditions f v = none) := by
  refine ⟨rfl, ?_, ?_, ?_, ?_⟩
  · intro s hs
    simp [normalizeAuthorityId, hs]
  · intro s h1 h2
    simp [normalizeAuthorityId, h1, h2]
  · intro v t hv
    unfold summarizePivotConditions
    rw [hv]
  · intro v f hv
    unfold summarizePivotConditions
    rw [hv]
    cases normalizeAuthorityId f <;> rfl

theorem claim_C7_witness :
    normalizeAuthorityId (some "   ") = none ∧
    normalizeAuthorityId (some "NOT_A_REAL_AUTHORITY") = none ∧
    summarizePivotConditions (some "NOT_A_REAL_AUTHORITY") (some "DSCA") = none ∧
    summarizePivotConditions (some "DSCA") (some "NOT_A_REAL_AUTHORITY") = none :=
  ⟨claim_C7.2.1 "   " rfl,
   claim_C7.2.2.1 "NOT_A_REAL_AUTHORITY" rfl rfl,
   claim_C7.2.2.2.1 _ _ rfl,
   claim_C7.2.2.2.2 _ _ rfl⟩

/-- Claim C8: the delta stage diffs against the most recently completed
prior run — the selected previous run is a completed member of the prior
run list with the greatest sequence number among completed runs, so a
`failed` run is never selected — and with no prior run the stage resolves
to the first-run case and emits the explicit non-empty first-run marker. -/
theorem claim_C8 : ∀ runs : List AgentRun,
    (∀ r, deltaBasis runs = .previous r →
        r ∈ runs ∧ r.status = .completed ∧
          ∀ q ∈ runs, q.status = .completed → q.seq ≤ r.seq) ∧
    (runs = [] → deltaBasis runs = .firstRun) ∧
    (∀ diffAgainst, runs = [] → deltaStageOutput runs diffAgainst = firstRunMarker) ∧
    firstRunMarker ≠ "" := by
  intro runs
  refine ⟨?_, ?_, ?_, ?_⟩
  · intro r hr
    unfold deltaBasis at hr
    cases hl : latestCompleted runs with
    | none => rw [hl] at hr; simp at hr
    | some c =>
      rw [hl] at hr
      simp at hr
      obtain rfl := hr
      unfold latestCompleted at hl
      have hmem := maxBySeq_mem _ _ hl
      have hge := maxBySeq_ge _ _ hl
      rw [List.mem_filter] at hmem
      refine ⟨hmem.1, by simpa using hmem.2, ?_⟩
      intro q hq hqc
      exact hge q (List.mem_filter.mpr ⟨hq, by simp [hqc]⟩)
  · intro h
    subst h
    rfl
  · intro d h
    subst h
    rfl
  · simp [firstRunMarker]

theorem claim_C8_witness :
    ((⟨2, .completed⟩ : AgentRun) ∈
        ([⟨1, .failed⟩, ⟨2, .completed⟩, ⟨3, .failed⟩] : List AgentRun) ∧
      (⟨2, .completed⟩ : AgentRun).status = .completed ∧
      ∀ q ∈ ([⟨1, .failed⟩, ⟨2, .completed⟩, ⟨3, .failed⟩] : List AgentRun),
        q.status = .completed → q.seq ≤ (⟨2, .completed⟩ : AgentRun).seq) ∧
    deltaBasis [] = .firstRun ∧
    deltaStageOutput [] (fun _ => "") = firstRunMarker ∧
    firstRunMarker ≠ "" :=
  ⟨(claim_C8 [⟨1, .failed⟩, ⟨2, .completed⟩, ⟨3, .failed⟩]).1 _ rfl,
   (claim_C8 []).2.1 rfl,
   (claim_C8 []).2.2.1 _ rfl,
   (claim_C8 []).2.2.2⟩

/-- Claim C10: in the static pivot rule table a rule has `allowed = false`
exactly when its risk tier is `BLOCKED`, so `getAllowedPivots` never returns
a rule with risk `BLOCKED`. -/
theorem claim_C10 :
    (∀ r ∈ AUTHORITY_PIVOTS, r.allowed = false ↔ r.risk = .BLOCKED) ∧
    (∀ src : AuthorityId, ∀ r ∈ getAllowedPivots src, r.risk ≠ .BLOCKED) := by
  have h1 : ∀ r ∈ AUTHORITY_PIVOTS, r.allowed = false ↔ r.risk = .BLOCKED := by decide
  refine ⟨h1, ?_⟩
  intro src r hr hbl
  obtain ⟨hmem, _, hallow⟩ := (mem_getAllowedPivots src r).mp hr
  have hfalse := (h1 r hmem).mpr hbl
  rw [hallow] at hfalse
  exact Bool.noConfusion hfalse

theorem claim_C10_witness :
    ({ from_ := .T10_MIL, to_ := .DSCA, allowed := true, risk := .LOW,
       conditions := [
         "Military acts in support of civil authorities.",
         "No direct arrest or law-enforcement actions.",
         "Emphasize logistics, SAR, comms, and protection."
       ] } : AuthorityPivotRule).risk ≠ .BLOCKED :=
  claim_C10.2 .T10_MIL _ (by decide)

/-- Claim C9 counterexample: on a whitespace-only INT code the source
function returns no message (its normalization drops codes that are empty
after trimming), while the claimed behaviour — one message per distinct
trimmed-and-upper-cased code not in `allowedInts` — produces one, so the
claim as stated fails at this input. -/
theorem claim_C9_counterexample :
    validateAuthorityIntSelection (some "TITLE_10_MIL") ["   "] = [] ∧
    claimedIntMessages (some "TITLE_10_MIL") ["   "] =
      [" is not authorized under the Title 10 – Military Operations lane."] ∧
    validateAuthorityIntSelection (some "TITLE_10_MIL") ["   "] ≠
      claimedIntMessages (some "TITLE_10_MIL") ["   "] := by
  refine ⟨rfl, rfl, ?_⟩
  decide

/-- Claim C9 (amended): `validateAuthorityIntSelection` returns `[]` when the
authority code is null/empty, the INT list is empty, or the authority is
unknown to the metadata table; otherwise it returns exactly one message per
distinct normalized (trimmed, upper-cased, dropped when empty after
trimming, deduplicated) INT code not in the authority's `allowedInts`, and
returns `[]` iff every selected INT normalizes to the empty string or is
allowed for that authority. -/
theorem claim_C9 : ∀ (authorityCode : Option String) (intCodes : List String),
    (authorityCode = none ∨ authorityCode = some "" →
        validateAuthorityIntSelection authorityCode intCodes = []) ∧
    (intCodes = [] → validateAuthorityIntSelection authorityCode intCodes = []) ∧
    (describeAuthority authorityCode = none →
        validateAuthorityIntSelection authorityCode intCodes = []) ∧
    (∀ meta, describeAuthority authorityCode = some meta → intCodes ≠ [] →
        validateAuthorityIntSelection authorityCode intCodes =
          ((normalizedIntCodes intCodes).filter
            (fun c => !(meta.allowedInts.contains c))).map (intNotAuthorizedMessage meta) ∧
        (validateAuthorityIntSelection authorityCode intCodes = [] ↔
          ∀ c ∈ intCodes, upperString (trimString c) = "" ∨
            upperString (trimString c) ∈ meta.allowedInts)) := by
  intro ac intCodes
  refine ⟨?_, ?_, ?_, ?_⟩
  · rintro (rfl | rfl) <;> rfl
  · rintro rfl
    cases ac with
    | none => rfl
    | some a => simp [validateAuthorityIntSelection]
  · intro hd
    cases ac with
    | none => rfl
    | some a =>
      by_cases h : a == ""
      · simp [validateAuthorityIntSelection, h]
      · simp [validateAuthorityIntSelection, h, hd]
  · intro meta hmeta hne
    cases ac with
    | none => exact absurd hmeta (by simp [describeAuthority])
    | some a =>
      have ha : (a == "") = false := by
        by_cases h : a == ""
        · exact absurd hmeta (by simp [describeAuthority, h])
        · simpa using h
      have hallow := describeAuthority_allowedInts_ne_nil _ _ hmeta
      have hie : intCodes.isEmpty = false := by
        cases intCodes with
        | nil => exact absurd rfl hne
        | cons _ _ => rfl
      have hai : meta.allowedInts.isEmpty = false := by
        cases hh : meta.allowedInts with
        | nil => exact absurd hh hallow
        | cons _ _ => rfl
      have hkey : validateAuthorityIntSelection (some a) intCodes =
          ((normalizedIntCodes intCodes).filter
            (fun c => !(meta.allowedInts.contains c))).map (intNotAuthorizedMessage meta) := by
        unfold validateAuthorityIntSelection
        simp only [ha, Bool.false_eq_true, if_false, hie, hmeta, hai]
        split
        · next hde =>
            rw [List.isEmpty_iff.mp hde]
            simp
        · rfl
      refine ⟨hkey, ?_⟩
      rw [hkey, List.map_eq_nil_iff, List.filter_eq_nil_iff]
      constructor
      · intro hforall c hc
        by_cases hc0 : upperString (trimString c) = ""
        · exact Or.inl hc0
        · right
          have hmem : upperString (trimString c) ∈ normalizedIntCodes intCodes := by
            unfold normalizedIntCodes
            rw [mem_dedupKeepFirst]
            refine List.mem_filter.mpr ⟨List.mem_map_of_mem _ hc, ?_⟩
            simp [hc0]
          have hx := hforall _ hmem
          simpa using hx
      · intro hall c hcmem
        unfold normalizedIntCodes at hcmem
        rw [mem_dedupKeepFirst] at hcmem
        obtain ⟨hcm, hcne⟩ := List.mem_filter.mp hcmem
        obtain ⟨c0, hc0mem, rfl⟩ := List.mem_map.mp hcm
        rcases hall c0 hc0mem with h0 | h0
        · simp [h0] at hcne
        · simp [h0]

theorem claim_C9_witness :
    validateAuthorityIntSelection (some "TITLE_10_MIL") ["osint", "FININT"] =
      ["FININT – Financial is not authorized under the Title 10 – Military Operations lane."] ∧
    validateAuthorityIntSelection (some "TITLE_10_MIL") ["osint", "geoint"] = [] := by
  have h1 := (claim_C9 (some "TITLE_10_MIL") ["osint", "FININT"]).2.2.2
  have h2 := (claim_C9 (some "TITLE_10_MIL") ["osint", "geoint"]).2.2.2
  constructor
  · rw [(h1 _ rfl (by simp)).1]
    rfl
  · exact (h2 _ rfl (by simp)).2.mpr (by decide)

end Apex
